import Mathlib

/-!
Verification development for the `web.py` scraper.

The Python source is shallowly embedded here.  External collaborators
(the `requests` session, BeautifulSoup selector results, `json.loads`,
and the ImgBB API) are modelled as a deterministic oracle (`Net`):
a fetched page is abstracted to the selector results the source reads
from it, an AJAX reply to its raw text, JSON parsing of an embed reply
to an optional parsed record, and the ImgBB upload to an optional parsed
reply.  Machine state touched by `scrape_and_save` (cache files with
modification times, the `cache` directory, the current clock) is an
explicit `World` value.  Every network request the source issues is
logged as a `Request` value carrying the `timeout=` argument given at
that call site.  The thread pools (`MAX_WORKERS = 10` for episodes,
3 for the page-level tasks) dispatch independent pure tasks; the only
behaviour the completion order can influence is the order in which
per-episode results are inserted into the `embed_results` dict, so the
embedding takes the completion order as an explicit parameter `sched`
(constrained to be a permutation of the submitted tasks in theorems).
JSON serialisation by `json.dump` is abstracted to the record it
encodes (`FileData.record`); pre-existing cache files of unknown shape
are `FileData.raw`.
-/

/-- One HTTP request issued through the `requests` session: the URL it
targets and the `timeout=` argument passed at that call site (`none`
would mean the call site passed no timeout). -/
structure Request where
  url : String
  timeout : Option Nat
deriving DecidableEq, Repr

/-- Parsed JSON of an AJAX embed reply, as read by `process_episode_link`:
`embed_data.get("embed_url")` and `embed_data.get("type")`. -/
structure EmbedData where
  embed_url : Option String
  type : Option String
deriving DecidableEq, Repr

/-- Selector results inside the `media-box` div, as read by `extract_info`:
the genre anchor texts when the `genres` div exists, and the text of the
first `p` inside the `content` div when both exist. -/
structure MediaBoxData where
  genresDiv : Option (List String)
  contentP : Option String
deriving DecidableEq, Repr

/-- A fetched HTML page, abstracted to the four selector results the
source ever reads from a page: the `.episodes-lists a[href]` hrefs in
document order, the `value` attribute of the hidden `postid` input when
that element exists, the `media-box` contents, and the `data-src`
attribute of the `div.anime-card.player a.image` element when present. -/
structure Page where
  episodeLinks : List String
  postid : Option String
  mediaBox : Option MediaBoxData
  bgImageDataSrc : Option String
deriving DecidableEq, Repr

/-- Parsed JSON of an ImgBB upload reply: the `success` flag and the
`data.url` field when present (`url = none` models a reply where
`data["data"]["url"]` raises `KeyError`, caught by `except Exception`). -/
structure UploadResp where
  success : Bool
  url : Option String
deriving DecidableEq, Repr

/-- The deterministic external world: page fetches by URL (`none` is a
`RequestException`), the admin-ajax POST by payload (`none` is a
`RequestException`), JSON parsing of an embed reply (`none` is a
`JSONDecodeError`), and the ImgBB upload by image URL (`none` is a
request failure or unparseable reply). -/
structure Net where
  fetchPage : String → Option Page
  ajax : String → Option String
  parseEmbed : String → Option EmbedData
  upload : String → Option UploadResp

/-- Constant `MAX_WORKERS = 10` from the source, the `max_workers`
argument of the episode `ThreadPoolExecutor`. -/
def MAX_WORKERS : Nat := 10

/-- Constant `ADMIN_URL` from the source. -/
def ADMIN_URL : String := "https://web.animerco.org/wp-admin/admin-ajax.php"

/-- The ImgBB endpoint hard-coded in `upload_image_from_url`. -/
def IMGBB_UPLOAD_URL : String := "https://api.imgbb.com/1/upload"

/-- Numeric value of a digit run, as `int()` reads it (leading zeros
allowed). -/
def digitsVal (ds : List Char) : Nat :=
  ds.foldl (fun a c => a * 10 + (c.toNat - '0'.toNat)) 0

/-- Scan for the regex `-(\d+)(?:-|$)` as `re.search` does: at each
position, a literal `-` followed by a maximal nonempty digit run that is
followed by `-` or the end of the string (Python `$` also matches just
before a single trailing newline). -/
def extractEpAux : List Char → Option Nat
  | [] => none
  | c :: rest =>
    if c = '-' then
      let ds := rest.takeWhile (fun x => x.isDigit)
      let tl := rest.dropWhile (fun x => x.isDigit)
      if ds ≠ [] ∧ (tl = [] ∨ tl.head? = some '-' ∨ tl = ['\n']) then
        some (digitsVal ds)
      else extractEpAux rest
    else extractEpAux rest

/-- `extract_episode_number` from the source: `re.search(r'-(\d+)(?:-|$)', url)`,
returning `int` of the captured digits on a match. -/
def extract_episode_number (url : String) : Option Nat :=
  extractEpAux url.data

/-- The episode number `process_episode_link` uses:
`extract_episode_number(link) or index` — Python `or` falls back to the
index both when the regex does not match (`None`) and when it captures
`0` (falsy). -/
def epNumOf (link : String) (index : Nat) : Nat :=
  match extract_episode_number link with
  | none => index
  | some 0 => index
  | some (n + 1) => n + 1

/-- Literal part of the `get_anime_name_from_url` pattern
`https://web\.animerco\.org/seasons/([^/]+)/`. -/
def seasonsPat : List Char := "https://web.animerco.org/seasons/".data

/-- Try the seasons pattern at one position: the literal, then a
nonempty `[^/]+` capture, then a `/`. -/
def matchSeasonsAt (cs : List Char) : Option String :=
  if seasonsPat.isPrefixOf cs then
    let rest := cs.drop seasonsPat.length
    let name := rest.takeWhile (fun c => c ≠ '/')
    if name ≠ [] ∧ (rest.dropWhile (fun c => c ≠ '/')).head? = some '/' then
      some (String.mk name)
    else none
  else none

/-- `re.search` of the seasons pattern: try every start position, left
to right. -/
def searchSeasons : List Char → Option String
  | [] => none
  | c :: rest =>
    match matchSeasonsAt (c :: rest) with
    | some n => some n
    | none => searchSeasons rest

/-- `get_anime_name_from_url` from the source: the first capture of the
seasons pattern, or the constant `"unknown_anime"` when the pattern does
not occur in the URL. -/
def get_anime_name_from_url (base_url : String) : String :=
  match searchSeasons base_url.data with
  | some n => n
  | none => "unknown_anime"

/-- A character kept by `re.sub(r"[^\w\-]", "", ...)`; this embedding
restricts Python `\w` to its ASCII part (alphanumerics and `_`), which
is exact on every name this development evaluates. -/
def keptChar (c : Char) : Bool :=
  c.isAlphanum || c = '_' || c = '-'

/-- `sanitize_filename` from the source: spaces become underscores, then
every character outside `[\w\-]` is removed. -/
def sanitize_filename (filename : String) : String :=
  String.mk ((filename.data.map (fun c => if c = ' ' then '_' else c)).filter keptChar)

/-- Python `str.startswith`, spelled on character lists (equivalent to
`String.startsWith`, which does not reduce inside the kernel). -/
def pyStartsWith (s pre : String) : Bool :=
  pre.data.isPrefixOf s.data

/-- Association-list lookup (first entry wins), the read counterpart of
a Python dict / of the modelled file system. -/
def lookA {α : Type} : List (String × α) → String → Option α
  | [], _ => none
  | p :: ps, k => if p.1 = k then some p.2 else lookA ps k

/-- Association-list store with Python dict semantics: overwrite in
place when the key exists, append otherwise. -/
def updA {α : Type} (m : List (String × α)) (k : String) (v : α) : List (String × α) :=
  if m.any (fun q => q.1 == k) then
    m.map (fun q => if q.1 = k then (k, v) else q)
  else m ++ [(k, v)]

/-- `get_postid` from the source: GET the episode page with
`timeout=10`; on a `RequestException` print and return `None`, otherwise
return the hidden `postid` input's `value` attribute, or `None` when the
element is absent.  (The `lru_cache` wrapper is transparent on a pure
function.)  The second component logs the request issued. -/
def get_postid (net : Net) (url : String) : Option String × List Request :=
  match net.fetchPage url with
  | none => (none, [⟨url, some 10⟩])
  | some page => (page.postid, [⟨url, some 10⟩])

/-- `get_episode_embed` from the source: look up the postid (Python
`if not postid_value` also rejects an empty string), then POST the
`player_ajax` payload to `ADMIN_URL` with `timeout=10`, returning the
raw response text, or `None` on failure. -/
def get_episode_embed (net : Net) (episode_url : String) : Option String × List Request :=
  let r := get_postid net episode_url
  match r.1 with
  | none => (none, r.2)
  | some postid_value =>
    if postid_value = "" then (none, r.2)
    else
      let payload := "action=player_ajax&post=" ++ postid_value ++ "&nume=1&type=tv"
      (net.ajax payload, r.2 ++ [⟨ADMIN_URL, some 10⟩])

/-- Episode record built by `process_episode_link` and persisted in the
cache file. -/
structure Episode where
  episode : Nat
  page_url : String
  embed_url : String
  type : Option String
deriving DecidableEq, Repr

/-- `process_episode_link` from the source: derive the episode number,
fetch the embed reply (`if not embed_info` also rejects an empty reply),
parse its JSON, and on a truthy `embed_url` return
`(str(ep_num), record)`; every failure yields `None`. -/
def process_episode_link (net : Net) (link : String) (index : Nat) :
    Option (String × Episode) × List Request :=
  let ep_num := epNumOf link index
  let r := get_episode_embed net link
  match r.1 with
  | none => (none, r.2)
  | some embed_info =>
    if embed_info = "" then (none, r.2)
    else
      match net.parseEmbed embed_info with
      | none => (none, r.2)
      | some embed_data =>
        match embed_data.embed_url with
        | none => (none, r.2)
        | some embed_url =>
          if embed_url = "" then (none, r.2)
          else (some (toString ep_num, ⟨ep_num, link, embed_url, embed_data.type⟩), r.2)

/-- The duplicate-removal loop of `get_all_episodes`: keep the first
occurrence of each href, preserving order. -/
def dedupLinks (links : List String) : List String :=
  links.foldl (fun acc l => if l ∈ acc then acc else acc ++ [l]) []

/-- The tasks `get_all_episodes` submits to its executor:
`(link, i + 1)` for each unique link, `i` from `enumerate`. -/
def submittedEntries (page : Page) : List (String × Nat) :=
  (dedupLinks page.episodeLinks).enum.map (fun p => (p.2, p.1 + 1))

/-- The successful result of one submitted task, if any. -/
def succRes (net : Net) (e : String × Nat) : Option (String × Episode) :=
  (process_episode_link net e.1 e.2).1

/-- One iteration of the `as_completed` loop: a `None` (or raising)
future is skipped, a successful one is stored with dict semantics. -/
def epStep (net : Net) (acc : List (String × Episode)) (e : String × Nat) :
    List (String × Episode) :=
  match succRes net e with
  | none => acc
  | some kv => updA acc kv.1 kv.2

/-- The `embed_results` dict after draining `as_completed` in the given
completion order. -/
def buildResults (net : Net) (es : List (String × Nat)) : List (String × Episode) :=
  es.foldl (epStep net) []

/-- All requests issued by the submitted episode tasks. -/
def episodesLog (net : Net) (es : List (String × Nat)) : List Request :=
  (es.map (fun e => (process_episode_link net e.1 e.2).2)).flatten

/-- `get_all_episodes` from the source: GET the listing page with
`timeout=10` (a `RequestException` prints and returns `None`), dedup the
episode hrefs, fan the unique links out over the
`ThreadPoolExecutor(max_workers=MAX_WORKERS)` and drain `as_completed`;
`sched` is the completion order of the submitted tasks. -/
def get_all_episodes (net : Net) (sched : List (String × Nat) → List (String × Nat))
    (base_url : String) : Option (List (String × Episode)) × List Request :=
  match net.fetchPage base_url with
  | none => (none, [⟨base_url, some 10⟩])
  | some page =>
    let entries := sched (submittedEntries page)
    (some (buildResults net entries), ⟨base_url, some 10⟩ :: episodesLog net entries)

/-- `upload_image_from_url` from the source: `if not image_url` skips
without a request; otherwise POST the two-field form to ImgBB with
`timeout=15`, and return `data["data"]["url"]` when `data["success"]`
is true; every failure (including a missing `url` field) yields
`None`. -/
def upload_image_from_url (net : Net) (image_url : String) : Option String × List Request :=
  if image_url = "" then (none, [])
  else
    match net.upload image_url with
    | none => (none, [⟨IMGBB_UPLOAD_URL, some 15⟩])
    | some data =>
      if data.success then
        match data.url with
        | some u => (some u, [⟨IMGBB_UPLOAD_URL, some 15⟩])
        | none => (none, [⟨IMGBB_UPLOAD_URL, some 15⟩])
      else (none, [⟨IMGBB_UPLOAD_URL, some 15⟩])

/-- `get_bg_image` from the source: GET the page with `timeout=10`; when
the `a.image` element with a `data-src` attribute exists, upload that
URL to ImgBB; every failure yields `None`. -/
def get_bg_image (net : Net) (base_url : String) : Option String × List Request :=
  match net.fetchPage base_url with
  | none => (none, [⟨base_url, some 10⟩])
  | some page =>
    match page.bgImageDataSrc with
    | none => (none, [⟨base_url, some 10⟩])
    | some src =>
      let r := upload_image_from_url net src
      (r.1, ⟨base_url, some 10⟩ :: r.2)

/-- Value returned by `extract_info`: either the
`{"genres": ..., "content": ...}` dict or one of its `{"error": ...}`
dicts. -/
inductive InfoResult where
  | ok (genres : List String) (content : Option String)
  | error (msg : String)
deriving DecidableEq, Repr

/-- `extract_info` from the source: GET the page with `timeout=10`; a
`RequestException` yields the `{"error": "Request failed: ..."}` dict, a
missing `media-box` yields `{"error": "media-box not found"}`, otherwise
the genres list (empty when the `genres` div is absent) and the content
text. -/
def extract_info (net : Net) (base_url : String) : InfoResult × List Request :=
  match net.fetchPage base_url with
  | none => (.error "Request failed", [⟨base_url, some 10⟩])
  | some page =>
    match page.mediaBox with
    | none => (.error "media-box not found", [⟨base_url, some 10⟩])
    | some mb =>
      let genre_list := match mb.genresDiv with
        | none => []
        | some gs => gs
      (.ok genre_list mb.contentP, [⟨base_url, some 10⟩])

/-- The flat dict `scrape_and_save` builds and `json.dump`s: success
flag, source URL, optional image URL, info dict, and the episodes
dict. -/
structure CacheRecord where
  success : Bool
  base_url : String
  imgUrl : Option String
  info : InfoResult
  episodes : List (String × Episode)
deriving DecidableEq, Repr

/-- Content of a file: a serialised cache record (JSON serialisation is
abstracted to the record it encodes) or arbitrary pre-existing bytes. -/
inductive FileData where
  | record (r : CacheRecord)
  | raw (s : String)
deriving DecidableEq, Repr

/-- A file as `scrape_and_save` observes it: content plus the
modification time `os.path.getmtime` reads. -/
structure FileInfo where
  data : FileData
  mtime : Nat
deriving DecidableEq, Repr

/-- Machine state `scrape_and_save` touches: files by path, existing
directories, and the current `time.time()` clock (constant within one
call). -/
structure World where
  files : List (String × FileInfo)
  dirs : List String
  now : Nat
deriving DecidableEq

/-- The cache path `scrape_and_save` computes:
`cache/{sanitize_filename(get_anime_name_from_url(base_url))}.json`. -/
def cacheFileOf (base_url : String) : String :=
  "cache/" ++ sanitize_filename (get_anime_name_from_url base_url) ++ ".json"

/-- `os.makedirs("cache", exist_ok=True)`. -/
def mkdirCache (w : World) : World :=
  { w with dirs := if "cache" ∈ w.dirs then w.dirs else w.dirs ++ ["cache"] }

/-- The freshness test of `scrape_and_save`: the cache file exists and
`time.time() - getmtime < 86400` (Python would also take this branch
for a file modified in the future; so does truncated `Nat`
subtraction). -/
def isFresh (files : List (String × FileInfo)) (cache_file : String) (now : Nat) : Bool :=
  match lookA files cache_file with
  | some fi => decide (now - fi.mtime < 86400)
  | none => false

/-- The fetch-and-write tail of `scrape_and_save`: run
`get_all_episodes`, `get_bg_image` and `extract_info` (submitted to a
3-worker executor; they are independent pure tasks), then abort when
episodes is `None`, otherwise overwrite the cache file with the new
record, stamped with the current time. -/
def scrapeBody (net : Net) (sched : List (String × Nat) → List (String × Nat))
    (w : World) (base_url cache_file : String) : World × List Request :=
  let epr := get_all_episodes net sched base_url
  let bgr := get_bg_image net base_url
  let inr := extract_info net base_url
  let log := epr.2 ++ bgr.2 ++ inr.2
  match epr.1 with
  | none => (w, log)
  | some eps =>
    let fi := FileInfo.mk (FileData.record ⟨true, base_url, bgr.1, inr.1, eps⟩) w.now
    ({ w with files := updA w.files cache_file fi }, log)

/-- `scrape_and_save` from the source: reject URLs outside
`https://web.animerco.org/` before doing anything, create the cache
directory, return early on a fresh cache file, otherwise fetch and
save. -/
def scrape_and_save (net : Net) (sched : List (String × Nat) → List (String × Nat))
    (w : World) (base_url : String) : World × List Request :=
  if pyStartsWith base_url "https://web.animerco.org/" then
    let w1 := mkdirCache w
    let cache_file := cacheFileOf base_url
    if isFresh w1.files cache_file w1.now then (w1, [])
    else scrapeBody net sched w1 base_url cache_file
  else (w, [])

/-- Identity completion order: futures complete in submission order. -/
def idSched : List (String × Nat) → List (String × Nat) := fun l => l

/-- A world with no files and no directories. -/
def w0 : World := { files := [], dirs := [], now := 1000000 }

/-- Demo listing URL (matches the seasons pattern with name `demo`). -/
def demoURL : String := "https://web.animerco.org/seasons/demo/"

/-- Demo episode page URL (episode number 1 in the URL). -/
def demoEp1 : String := "https://web.animerco.org/episodes/demo-1-a/"

/-- Demo listing page: one episode link, a media box and a background
image, no postid. -/
def demoPage : Page :=
  { episodeLinks := [demoEp1], postid := none,
    mediaBox := some { genresDiv := some ["Action"], contentP := some "A show." },
    bgImageDataSrc := some "https://cdn.example/bg.png" }

/-- Demo episode page: postid `55`, nothing else. -/
def demoEpPage : Page :=
  { episodeLinks := [], postid := some "55", mediaBox := none, bgImageDataSrc := none }

/-- Demo oracle: one listing with one episode that resolves to an embed
URL, plus a background image that uploads successfully. -/
def demoNet : Net :=
  { fetchPage := fun u =>
      if u = demoURL then some demoPage
      else if u = demoEp1 then some demoEpPage
      else none,
    ajax := fun payload =>
      if payload = "action=player_ajax&post=55&nume=1&type=tv" then some "J55" else none,
    parseEmbed := fun t =>
      if t = "J55" then some { embed_url := some "https://embed.example/1", type := some "tv" }
      else none,
    upload := fun img =>
      if img = "https://cdn.example/bg.png" then some { success := true, url := some "https://ibb.example/1" }
      else none }

/-- Fresh-cache world for the demo URL: `cache/demo.json` exists and is
1000 seconds old. -/
def wFresh : World :=
  { files := [("cache/demo.json", ⟨FileData.raw "old", 999000⟩)], dirs := ["cache"], now := 1000000 }

/-- Listing URL for the key-collision run of claim C1. -/
def c1URL : String := "https://web.animerco.org/seasons/cone/"

/-- First episode link deriving number 7. -/
def c1a : String := "https://web.animerco.org/episodes/cone-7-a/"

/-- Second, distinct episode link also deriving number 7. -/
def c1b : String := "https://web.animerco.org/episodes/cone-7-b/"

/-- Oracle in which both distinct links of `c1URL` succeed and derive
episode number 7. -/
def c1Net : Net :=
  { fetchPage := fun u =>
      if u = c1URL then some { episodeLinks := [c1a, c1b], postid := none, mediaBox := none, bgImageDataSrc := none }
      else if u = c1a then some { episodeLinks := [], postid := some "7001", mediaBox := none, bgImageDataSrc := none }
      else if u = c1b then some { episodeLinks := [], postid := some "7002", mediaBox := none, bgImageDataSrc := none }
      else none,
    ajax := fun p =>
      if p = "action=player_ajax&post=7001&nume=1&type=tv" then some "JA"
      else if p = "action=player_ajax&post=7002&nume=1&type=tv" then some "JB"
      else none,
    parseEmbed := fun t =>
      if t = "JA" then some { embed_url := some "https://embed.example/a", type := some "tv" }
      else if t = "JB" then some { embed_url := some "https://embed.example/b", type := some "tv" }
      else none,
    upload := fun _ => none }

/-- Listing URL for the claim C5 collision run. -/
def c5URL : String := "https://web.animerco.org/seasons/cfive/"

/-- Episode link whose URL carries number 2. -/
def c5a : String := "https://web.animerco.org/episodes/cfive-2-a/"

/-- Episode link with no number in the URL, submitted at index 2. -/
def c5b : String := "https://web.animerco.org/episodes/finale/"

/-- Oracle in which `c5a` derives number 2 from its URL and `c5b` falls
back to its submission index 2, both succeeding. -/
def c5Net : Net :=
  { fetchPage := fun u =>
      if u = c5URL then some { episodeLinks := [c5a, c5b], postid := none, mediaBox := none, bgImageDataSrc := none }
      else if u = c5a then some { episodeLinks := [], postid := some "5001", mediaBox := none, bgImageDataSrc := none }
      else if u = c5b then some { episodeLinks := [], postid := some "5002", mediaBox := none, bgImageDataSrc := none }
      else none,
    ajax := fun p =>
      if p = "action=player_ajax&post=5001&nume=1&type=tv" then some "KA"
      else if p = "action=player_ajax&post=5002&nume=1&type=tv" then some "KB"
      else none,
    parseEmbed := fun t =>
      if t = "KA" then some { embed_url := some "https://embed.example/a2", type := some "tv" }
      else if t = "KB" then some { embed_url := some "https://embed.example/b2", type := some "tv" }
      else none,
    upload := fun _ => none }

/-- Listing URL for the claim C4 run whose media box is absent. -/
def c4URL : String := "https://web.animerco.org/seasons/cfour/"

/-- Oracle whose listing page has no episode links, no media box and no
background image: `extract_info` returns an error dict while
`get_all_episodes` succeeds with an empty dict. -/
def c4Net : Net :=
  { fetchPage := fun u =>
      if u = c4URL then some { episodeLinks := [], postid := none, mediaBox := none, bgImageDataSrc := none }
      else none,
    ajax := fun _ => none,
    parseEmbed := fun _ => none,
    upload := fun _ => none }

/-- The shape §3 of the spec ascribes to the persisted `info` field,
followed from the spec's words: a genre list plus a description
(the `ok` constructor), as opposed to an error dict. -/
def claim4InfoShape : InfoResult → Bool
  | .ok _ _ => true
  | .error _ => false

/-- Listing URL for the claim C3 run. -/
def c3URL : String := "https://web.animerco.org/seasons/cthree/"

/-- Episode link whose processing fails (no postid on its page). -/
def c3a : String := "https://web.animerco.org/episodes/cthree-1-a/"

/-- Episode link whose processing succeeds. -/
def c3b : String := "https://web.animerco.org/episodes/cthree-2-a/"

/-- Oracle in which the first episode of `c3URL` fails (missing postid)
and the second succeeds; uploads always fail. -/
def c3Net : Net :=
  { fetchPage := fun u =>
      if u = c3URL then some { episodeLinks := [c3a, c3b], postid := none, mediaBox := none, bgImageDataSrc := none }
      else if u = c3a then some { episodeLinks := [], postid := none, mediaBox := none, bgImageDataSrc := none }
      else if u = c3b then some { episodeLinks := [], postid := some "33", mediaBox := none, bgImageDataSrc := none }
      else none,
    ajax := fun p =>
      if p = "action=player_ajax&post=33&nume=1&type=tv" then some "J33" else none,
    parseEmbed := fun t =>
      if t = "J33" then some { embed_url := some "https://embed.example/3", type := some "tv" }
      else none,
    upload := fun _ => none }

/-- Listing URL for the run showing a persisted info error dict. -/
def c3xURL : String := "https://web.animerco.org/seasons/cthreex/"

/-- Oracle whose listing page exists but has no episode links and no
media box: `get_all_episodes` succeeds with an empty dict while
`extract_info` fails into its error dict, which the run persists. -/
def c3xNet : Net :=
  { fetchPage := fun u =>
      if u = c3xURL then some { episodeLinks := [], postid := none, mediaBox := none, bgImageDataSrc := none }
      else none,
    ajax := fun _ => none,
    parseEmbed := fun _ => none,
    upload := fun _ => none }

/-- Later-completing winner for a key: the value of the last successful
task in the completion order whose derived key is `k`. -/
def lastWin (net : Net) (k : String) : List (String × Nat) → Option Episode
  | [] => none
  | e :: rest =>
    match lastWin net k rest with
    | some v => some v
    | none =>
      match succRes net e with
      | some kv => if kv.1 = k then some kv.2 else none
      | none => none


/-- Conclusion of the amended claim C1: every entry of the episodes
mapping is the result of processing its own link (key `str(ep_num)`,
`page_url` the link, `episode` the derived number), and every successful
task's result is present. -/
def EpisodesAssocSpec (net : Net) (page : Page) (m : List (String × Episode)) : Prop :=
  (∀ p ∈ m, ∃ e ∈ submittedEntries page, succRes net e = some p ∧
      p.1 = toString p.2.episode ∧ p.2.page_url = e.1 ∧ p.2.episode = epNumOf e.1 e.2) ∧
  (∀ e ∈ submittedEntries page, ∀ p : String × Episode, succRes net e = some p → p ∈ m)

/-- Conclusion of the amended claim C5: the keys of the episodes mapping
are distinct, and every entry comes from one of the submitted tasks. -/
def EpisodesKeysSpec (net : Net) (page : Page) (m : List (String × Episode)) : Prop :=
  (m.map Prod.fst).Nodup ∧
  ∀ p ∈ m, ∃ e ∈ submittedEntries page, succRes net e = some p

/-- Conclusion of claim C2: on a fresh cache file a valid call issues no
request and leaves the files untouched, and a call that issues any
request found the cache file absent or at least a day old. -/
def CacheFreshSpec (net : Net) (sched : List (String × Nat) → List (String × Nat))
    (w : World) (base_url : String) : Prop :=
  (∀ fi : FileInfo, lookA w.files (cacheFileOf base_url) = some fi →
      w.now - fi.mtime < 86400 →
      (scrape_and_save net sched w base_url).2 = [] ∧
      ((scrape_and_save net sched w base_url).1).files = w.files) ∧
  ((scrape_and_save net sched w base_url).2 ≠ [] →
      ∀ fi : FileInfo, lookA w.files (cacheFileOf base_url) = some fi →
        86400 ≤ w.now - fi.mtime)

/-- Conclusion of the amended claim C4: after a successful run the cache
file holds exactly the flat record `success=True`, the source URL, the
optional image URL, the info dict (genre list + description, or an error
dict), and the episodes dict keyed by `str(ep_num)`. -/
def PersistedRecordSpec (net : Net) (sched : List (String × Nat) → List (String × Nat))
    (w : World) (base_url : String) : Prop :=
  ∃ eps : List (String × Episode),
    (get_all_episodes net sched base_url).1 = some eps ∧
    lookA ((scrape_and_save net sched w base_url).1).files (cacheFileOf base_url) =
      some ⟨FileData.record ⟨true, base_url, (get_bg_image net base_url).1,
        (extract_info net base_url).1, eps⟩, w.now⟩ ∧
    (∀ p ∈ eps, p.1 = toString p.2.episode) ∧
    ((∃ g c, (extract_info net base_url).1 = InfoResult.ok g c) ∨
      (∃ s, (extract_info net base_url).1 = InfoResult.error s))

/-- Conclusion of claim C6: a successful run rewrites the cache file
wholesale with the newly built record — the new file content does not
depend on the prior content — and leaves every other file unchanged. -/
def OverwriteSpec (net : Net) (sched : List (String × Nat) → List (String × Nat))
    (w : World) (base_url : String) : Prop :=
  ∃ eps : List (String × Episode),
    (get_all_episodes net sched base_url).1 = some eps ∧
    ((scrape_and_save net sched w base_url).1).files =
      updA w.files (cacheFileOf base_url)
        ⟨FileData.record ⟨true, base_url, (get_bg_image net base_url).1,
          (extract_info net base_url).1, eps⟩, w.now⟩ ∧
    ∀ f : String, f ≠ cacheFileOf base_url →
      lookA ((scrape_and_save net sched w base_url).1).files f = lookA w.files f

/-- Conclusion of claim C7: `get_postid` forwards the hidden input's
value attribute (or `None` on a missing element or failed fetch), and
`get_episode_embed` returns `None` on a missing postid and otherwise
returns the AJAX reply for the `player_ajax` payload built from it. -/
def PostidSpec (net : Net) (url : String) : Prop :=
  (∀ page : Page, net.fetchPage url = some page → (get_postid net url).1 = page.postid) ∧
  (net.fetchPage url = none → (get_postid net url).1 = none) ∧
  ((get_postid net url).1 = none → (get_episode_embed net url).1 = none) ∧
  (∀ pv : String, (get_postid net url).1 = some pv → pv ≠ "" →
    (get_episode_embed net url).1 =
      net.ajax ("action=player_ajax&post=" ++ pv ++ "&nume=1&type=tv"))

/-- Conclusion of the amended claim C3: a failed listing fetch becomes
`None`, a failed episode task is omitted from the episodes dict while
the result over the remaining tasks is unchanged, a failed info fetch
becomes an error dict (not a null or omitted value), and a failed upload
becomes `None`. -/
def ErrorsAreValuesSpec (net : Net) (sched : List (String × Nat) → List (String × Nat))
    (base_url img_url : String) : Prop :=
  (net.fetchPage base_url = none → (get_all_episodes net sched base_url).1 = none) ∧
  (∀ page : Page, net.fetchPage base_url = some page →
    (get_all_episodes net sched base_url).1 =
      some (buildResults net
        ((sched (submittedEntries page)).filter (fun e => (succRes net e).isSome)))) ∧
  (net.fetchPage base_url = none → (extract_info net base_url).1 = .error "Request failed") ∧
  (net.upload img_url = none → (upload_image_from_url net img_url).1 = none)

theorem lookA_append {α : Type} (k : String) (m1 m2 : List (String × α)) :
    lookA (m1 ++ m2) k =
      match lookA m1 k with
      | some v => some v
      | none => lookA m2 k := by
  induction m1 with
  | nil => rfl
  | cons q qs ih =>
    by_cases h : q.1 = k <;> simp [lookA, h, ih]

theorem lookA_none_of_not_key {α : Type} (k : String) (m : List (String × α))
    (h : ∀ q ∈ m, q.1 ≠ k) : lookA m k = none := by
  induction m with
  | nil => rfl
  | cons q qs ih =>
    have hq : q.1 ≠ k := h q (List.mem_cons_self _ _)
    simp only [lookA, if_neg hq]
    exact ih (fun p hp => h p (List.mem_cons_of_mem _ hp))

theorem lookA_map_upd {α : Type} (k : String) (v : α) (m : List (String × α))
    (h : m.any (fun q => q.1 == k) = true) :
    lookA (m.map (fun q => if q.1 = k then (k, v) else q)) k = some v := by
  induction m with
  | nil => simp at h
  | cons q qs ih =>
    by_cases hq : q.1 = k
    · simp [lookA, hq]
    · have h2 : qs.any (fun q => q.1 == k) = true := by
        simp only [List.any_cons, Bool.or_eq_true, beq_iff_eq] at h
        rcases h with h | h
        · exact absurd h hq
        · simpa using h
      simp [lookA, hq, ih h2]

theorem lookA_map_upd_ne {α : Type} (k k2 : String) (v : α) (h : k2 ≠ k)
    (m : List (String × α)) :
    lookA (m.map (fun q => if q.1 = k then (k, v) else q)) k2 = lookA m k2 := by
  induction m with
  | nil => rfl
  | cons q qs ih =>
    simp only [List.map_cons]
    by_cases hq : q.1 = k
    · rw [if_pos hq]
      have h1 : ¬(k = k2) := fun he => h he.symm
      have h2 : ¬(q.1 = k2) := by rw [hq]; exact h1
      simp only [lookA, if_neg h1, if_neg h2]
      exact ih
    · rw [if_neg hq]
      simp only [lookA]
      by_cases hq2 : q.1 = k2
      · rw [if_pos hq2, if_pos hq2]
      · rw [if_neg hq2, if_neg hq2]
        exact ih

theorem lookA_updA_self {α : Type} (m : List (String × α)) (k : String) (v : α) :
    lookA (updA m k v) k = some v := by
  unfold updA
  split
  case isTrue h => exact lookA_map_upd k v m h
  case isFalse h =>
    have hnone : lookA m k = none := by
      apply lookA_none_of_not_key
      intro q hq hqk
      exact h (List.any_eq_true.mpr ⟨q, hq, by simp [hqk]⟩)
    rw [lookA_append, hnone]
    simp [lookA]

theorem lookA_updA_ne {α : Type} (m : List (String × α)) (k k2 : String) (v : α)
    (h : k2 ≠ k) : lookA (updA m k v) k2 = lookA m k2 := by
  unfold updA
  split
  case isTrue _ => exact lookA_map_upd_ne k k2 v h m
  case isFalse _ =>
    rw [lookA_append]
    cases hm : lookA m k2 with
    | some v2 => rfl
    | none =>
      have h1 : ¬(k = k2) := fun he => h he.symm
      simp [lookA, h1]

theorem mem_of_lookA_eq_some {α : Type} :
    ∀ {m : List (String × α)} {k : String} {v : α}, lookA m k = some v → (k, v) ∈ m := by
  intro m
  induction m with
  | nil => intro k v h; cases h
  | cons q qs ih =>
    intro k v h
    by_cases hq : q.1 = k
    · simp only [lookA, if_pos hq] at h
      have : q = (k, v) := by
        cases q; cases h; cases hq; rfl
      rw [← this]
      exact List.mem_cons_self _ _
    · simp only [lookA, if_neg hq] at h
      exact List.mem_cons_of_mem _ (ih h)

theorem mem_updA {α : Type} {m : List (String × α)} {k : String} {v : α} {p : String × α}
    (h : p ∈ updA m k v) : p ∈ m ∨ p = (k, v) := by
  unfold updA at h
  split at h
  case isTrue _ =>
    rcases List.mem_map.mp h with ⟨q, hq, he⟩
    by_cases hqk : q.1 = k
    · right; rw [← he, if_pos hqk]
    · left; rw [← he, if_neg hqk]; exact hq
  case isFalse _ =>
    rcases List.mem_append.mp h with h1 | h1
    · left; exact h1
    · right; simpa using h1

theorem keys_map_upd {α : Type} (k : String) (v : α) (m : List (String × α)) :
    (m.map (fun q => if q.1 = k then (k, v) else q)).map Prod.fst = m.map Prod.fst := by
  induction m with
  | nil => rfl
  | cons q qs ih =>
    by_cases hq : q.1 = k <;> simp [hq, ih]

theorem nodup_keys_updA {α : Type} {m : List (String × α)} (k : String) (v : α)
    (h : (m.map Prod.fst).Nodup) : ((updA m k v).map Prod.fst).Nodup := by
  unfold updA
  split
  case isTrue _ => rw [keys_map_upd]; exact h
  case isFalse hany =>
    rw [List.map_append]
    apply List.Nodup.append h (List.nodup_singleton k)
    intro a ha hb
    simp only [List.map_cons, List.map_nil, List.mem_singleton] at hb
    subst hb
    rcases List.mem_map.mp ha with ⟨q, hq, hfst⟩
    exact hany (List.any_eq_true.mpr ⟨q, hq, by simp [hfst]⟩)


theorem lastWin_cons_some (net : Net) (k : String) (e : String × Nat)
    (rest : List (String × Nat)) (v : Episode) (h : lastWin net k rest = some v) :
    lastWin net k (e :: rest) = some v := by
  unfold lastWin
  rw [h]

theorem lastWin_cons_succ (net : Net) (k : String) (e : String × Nat)
    (rest : List (String × Nat)) (kv : String × Episode)
    (h1 : lastWin net k rest = none) (h2 : succRes net e = some kv) :
    lastWin net k (e :: rest) = if kv.1 = k then some kv.2 else none := by
  unfold lastWin
  rw [h1, h2]

theorem lastWin_cons_fail (net : Net) (k : String) (e : String × Nat)
    (rest : List (String × Nat))
    (h1 : lastWin net k rest = none) (h2 : succRes net e = none) :
    lastWin net k (e :: rest) = none := by
  unfold lastWin
  rw [h1, h2]

theorem lastWin_sound (net : Net) (k : String) :
    ∀ (es : List (String × Nat)) (v : Episode),
      lastWin net k es = some v → ∃ e ∈ es, succRes net e = some (k, v) := by
  intro es
  induction es with
  | nil => intro v h; cases h
  | cons e0 rest ih =>
    intro v h
    cases hrest : lastWin net k rest with
    | some v2 =>
      rw [lastWin_cons_some net k e0 rest v2 hrest] at h
      injection h with hv
      subst hv
      rcases ih _ hrest with ⟨e2, he2, hs⟩
      exact ⟨e2, List.mem_cons_of_mem _ he2, hs⟩
    | none =>
      cases hs0 : succRes net e0 with
      | none =>
        rw [lastWin_cons_fail net k e0 rest hrest hs0] at h
        cases h
      | some kv =>
        rw [lastWin_cons_succ net k e0 rest kv hrest hs0] at h
        by_cases hk : kv.1 = k
        · rw [if_pos hk] at h
          cases h
          refine ⟨e0, List.mem_cons_self _ _, ?_⟩
          rw [hs0]
          obtain ⟨k1, v1⟩ := kv
          cases hk
          rfl
        · rw [if_neg hk] at h
          cases h

theorem mem_foldl_epStep (net : Net) :
    ∀ (es : List (String × Nat)) (acc : List (String × Episode)) (p : String × Episode),
      p ∈ es.foldl (epStep net) acc → p ∈ acc ∨ ∃ e ∈ es, succRes net e = some p := by
  intro es
  induction es with
  | nil => intro acc p h; exact Or.inl h
  | cons e rest ih =>
    intro acc p h
    rcases ih (epStep net acc e) p h with h1 | ⟨e2, he2, hs⟩
    · unfold epStep at h1
      cases hsr : succRes net e with
      | none => rw [hsr] at h1; exact Or.inl h1
      | some kv =>
        rw [hsr] at h1
        rcases mem_updA h1 with h2 | h2
        · exact Or.inl h2
        · right
          exact ⟨e, List.mem_cons_self _ _, by rw [hsr, h2]⟩
    · right
      exact ⟨e2, List.mem_cons_of_mem _ he2, hs⟩

theorem nodup_keys_foldl_epStep (net : Net) :
    ∀ (es : List (String × Nat)) (acc : List (String × Episode)),
      (acc.map Prod.fst).Nodup → ((es.foldl (epStep net) acc).map Prod.fst).Nodup := by
  intro es
  induction es with
  | nil => intro acc h; exact h
  | cons e rest ih =>
    intro acc h
    apply ih
    unfold epStep
    cases succRes net e with
    | none => exact h
    | some kv => exact nodup_keys_updA kv.1 kv.2 h

theorem foldl_epStep_filter (net : Net) :
    ∀ (es : List (String × Nat)) (acc : List (String × Episode)),
      es.foldl (epStep net) acc =
        (es.filter (fun e => (succRes net e).isSome)).foldl (epStep net) acc := by
  intro es
  induction es with
  | nil => intro acc; rfl
  | cons e rest ih =>
    intro acc
    cases hsr : succRes net e with
    | none =>
      have hst : epStep net acc e = acc := by unfold epStep; rw [hsr]
      simp only [List.foldl_cons, List.filter_cons, hsr, Option.isSome_none,
        Bool.false_eq_true, if_false, hst]
      exact ih acc
    | some kv =>
      simp only [List.foldl_cons, List.filter_cons, hsr, Option.isSome_some, if_true]
      exact ih (epStep net acc e)

theorem lookA_foldl_epStep (net : Net) (k : String) :
    ∀ (es : List (String × Nat)) (acc : List (String × Episode)),
      lookA (es.foldl (epStep net) acc) k =
        match lastWin net k es with
        | some v => some v
        | none => lookA acc k := by
  intro es
  induction es with
  | nil => intro acc; rfl
  | cons e rest ih =>
    intro acc
    rw [List.foldl_cons, ih]
    cases hrest : lastWin net k rest with
    | some v =>
      rw [lastWin_cons_some net k e rest v hrest]
    | none =>
      cases hsr : succRes net e with
      | none =>
        have h2 : epStep net acc e = acc := by unfold epStep; rw [hsr]
        rw [lastWin_cons_fail net k e rest hrest hsr, h2]
      | some kv =>
        have h2 : epStep net acc e = updA acc kv.1 kv.2 := by
          unfold epStep; rw [hsr]
        rw [lastWin_cons_succ net k e rest kv hrest hsr, h2]
        by_cases hk : kv.1 = k
        · rw [if_pos hk, ← hk]
          exact lookA_updA_self acc kv.1 kv.2
        · rw [if_neg hk]
          exact lookA_updA_ne acc kv.1 k kv.2 (fun he => hk he.symm)

theorem lastWin_complete (net : Net) (k : String) :
    ∀ es : List (String × Nat),
      (∀ e1 ∈ es, ∀ e2 ∈ es, (succRes net e1).map Prod.fst ≠ none →
        (succRes net e1).map Prod.fst = (succRes net e2).map Prod.fst →
        succRes net e1 = succRes net e2) →
      ∀ e ∈ es, ∀ p : String × Episode, succRes net e = some p → p.1 = k →
        lastWin net k es = some p.2 := by
  intro es
  induction es with
  | nil =>
    intro _ e he
    exact absurd he (List.not_mem_nil e)
  | cons e0 rest ih =>
    intro hinj e he p hsp hpk
    rcases List.mem_cons.mp he with he0 | her
    · subst he0
      cases hrest : lastWin net k rest with
      | none =>
        rw [lastWin_cons_succ net k e rest p hrest hsp, if_pos hpk]
      | some v =>
        rcases lastWin_sound net k rest v hrest with ⟨e2, he2, hs2⟩
        have h1 : (succRes net e).map Prod.fst ≠ none := by
          rw [hsp]; simp
        have h2 : (succRes net e).map Prod.fst = (succRes net e2).map Prod.fst := by
          rw [hsp, hs2]; simp [hpk]
        have h3 := hinj e (List.mem_cons_self _ _) e2 (List.mem_cons_of_mem _ he2) h1 h2
        rw [hsp, hs2] at h3
        cases h3
        exact lastWin_cons_some net k e rest v hrest
    · have hinj2 : ∀ e1 ∈ rest, ∀ e2 ∈ rest, (succRes net e1).map Prod.fst ≠ none →
          (succRes net e1).map Prod.fst = (succRes net e2).map Prod.fst →
          succRes net e1 = succRes net e2 :=
        fun a ha b hb => hinj a (List.mem_cons_of_mem _ ha) b (List.mem_cons_of_mem _ hb)
      exact lastWin_cons_some net k e0 rest p.2 (ih hinj2 e her p hsp hpk)

theorem mem_buildResults (net : Net) (es : List (String × Nat)) (p : String × Episode)
    (h : p ∈ buildResults net es) : ∃ e ∈ es, succRes net e = some p := by
  rcases mem_foldl_epStep net es [] p h with h1 | h1
  · cases h1
  · exact h1

theorem buildResults_nodup_keys (net : Net) (es : List (String × Nat)) :
    ((buildResults net es).map Prod.fst).Nodup :=
  nodup_keys_foldl_epStep net es [] List.nodup_nil

theorem buildResults_complete (net : Net) (es : List (String × Nat))
    (hinj : ∀ e1 ∈ es, ∀ e2 ∈ es, (succRes net e1).map Prod.fst ≠ none →
      (succRes net e1).map Prod.fst = (succRes net e2).map Prod.fst →
      succRes net e1 = succRes net e2)
    (e : String × Nat) (he : e ∈ es) (p : String × Episode)
    (hp : succRes net e = some p) : p ∈ buildResults net es := by
  have h1 := lastWin_complete net p.1 es hinj e he p hp rfl
  have h2 := lookA_foldl_epStep net p.1 es []
  rw [h1] at h2
  exact mem_of_lookA_eq_some h2

theorem process_episode_link_spec (net : Net) (link : String) (index : Nat)
    (p : String × Episode) (h : (process_episode_link net link index).1 = some p) :
    p.1 = toString p.2.episode ∧ p.2.page_url = link ∧ p.2.episode = epNumOf link index := by
  simp only [process_episode_link] at h
  cases hE : (get_episode_embed net link).1 with
  | none => simp [hE] at h
  | some embed_info =>
    simp only [hE] at h
    by_cases hne : embed_info = ""
    · simp [hne] at h
    · simp only [hne, if_false] at h
      cases hP : net.parseEmbed embed_info with
      | none => simp [hP] at h
      | some embed_data =>
        simp only [hP] at h
        cases hU : embed_data.embed_url with
        | none => simp [hU] at h
        | some embed_url =>
          simp only [hU] at h
          by_cases hue : embed_url = ""
          · simp [hue] at h
          · simp only [hue, if_false, Option.some.injEq] at h
            rw [← h]
            exact ⟨rfl, rfl, rfl⟩

theorem process_episode_link_log (net : Net) (link : String) (index : Nat) :
    (process_episode_link net link index).2 = (get_episode_embed net link).2 := by
  simp only [process_episode_link]
  cases hE : (get_episode_embed net link).1 with
  | none => simp only [hE]
  | some embed_info =>
    simp only [hE]
    by_cases hne : embed_info = ""
    · simp only [if_pos hne]
    · simp only [if_neg hne]
      cases hP : net.parseEmbed embed_info with
      | none => simp only [hP]
      | some embed_data =>
        simp only [hP]
        cases hU : embed_data.embed_url with
        | none => simp only [hU]
        | some embed_url =>
          simp only [hU]
          by_cases hue : embed_url = ""
          · simp only [if_pos hue]
          · simp only [if_neg hue]

theorem timeout_get_postid (net : Net) (url : String) :
    ∀ r ∈ (get_postid net url).2, r.timeout = some 10 := by
  intro r hr
  simp only [get_postid] at hr
  cases hF : net.fetchPage url with
  | none =>
    simp only [hF, List.mem_singleton] at hr
    rw [hr]
  | some page =>
    simp only [hF, List.mem_singleton] at hr
    rw [hr]

theorem timeout_get_episode_embed (net : Net) (url : String) :
    ∀ r ∈ (get_episode_embed net url).2, r.timeout = some 10 := by
  intro r hr
  simp only [get_episode_embed] at hr
  cases hP : (get_postid net url).1 with
  | none =>
    simp only [hP] at hr
    exact timeout_get_postid net url r hr
  | some pv =>
    simp only [hP] at hr
    by_cases hne : pv = ""
    · rw [if_pos hne] at hr
      exact timeout_get_postid net url r hr
    · rw [if_neg hne] at hr
      simp only [List.mem_append, List.mem_singleton] at hr
      rcases hr with hr | hr
      · exact timeout_get_postid net url r hr
      · rw [hr]

theorem timeout_episodesLog (net : Net) (es : List (String × Nat)) :
    ∀ r ∈ episodesLog net es, r.timeout = some 10 := by
  intro r hr
  simp only [episodesLog] at hr
  rcases List.mem_flatten.mp hr with ⟨l, hl, hrl⟩
  rcases List.mem_map.mp hl with ⟨e, _, hle⟩
  rw [← hle, process_episode_link_log] at hrl
  exact timeout_get_episode_embed net e.1 r hrl

theorem timeout_get_all_episodes (net : Net)
    (sched : List (String × Nat) → List (String × Nat)) (base_url : String) :
    ∀ r ∈ (get_all_episodes net sched base_url).2, r.timeout = some 10 := by
  intro r hr
  simp only [get_all_episodes] at hr
  cases hF : net.fetchPage base_url with
  | none =>
    simp only [hF, List.mem_singleton] at hr
    rw [hr]
  | some page =>
    simp only [hF, List.mem_cons] at hr
    rcases hr with hr | hr
    · rw [hr]
    · exact timeout_episodesLog net _ r hr

theorem timeout_upload_image_from_url (net : Net) (img : String) :
    ∀ r ∈ (upload_image_from_url net img).2, r.timeout = some 15 := by
  intro r hr
  simp only [upload_image_from_url] at hr
  by_cases he : img = ""
  · rw [if_pos he] at hr
    cases hr
  · rw [if_neg he] at hr
    cases hU : net.upload img with
    | none =>
      simp only [hU, List.mem_singleton] at hr
      rw [hr]
    | some data =>
      simp only [hU] at hr
      by_cases hs : data.success = true
      · rw [if_pos hs] at hr
        cases hV : data.url with
        | none =>
          simp only [hV, List.mem_singleton] at hr
          rw [hr]
        | some u =>
          simp only [hV, List.mem_singleton] at hr
          rw [hr]
      · rw [if_neg hs] at hr
        simp only [List.mem_singleton] at hr
        rw [hr]

theorem timeout_get_bg_image (net : Net) (base_url : String) :
    ∀ r ∈ (get_bg_image net base_url).2, r.timeout = some 10 ∨ r.timeout = some 15 := by
  intro r hr
  simp only [get_bg_image] at hr
  cases hF : net.fetchPage base_url with
  | none =>
    simp only [hF, List.mem_singleton] at hr
    left
    rw [hr]
  | some page =>
    simp only [hF] at hr
    cases hB : page.bgImageDataSrc with
    | none =>
      simp only [hB, List.mem_singleton] at hr
      left
      rw [hr]
    | some src =>
      simp only [hB, List.mem_cons] at hr
      rcases hr with hr | hr
      · left
        rw [hr]
      · right
        exact timeout_upload_image_from_url net src r hr

theorem timeout_extract_info (net : Net) (base_url : String) :
    ∀ r ∈ (extract_info net base_url).2, r.timeout = some 10 := by
  intro r hr
  simp only [extract_info] at hr
  cases hF : net.fetchPage base_url with
  | none =>
    simp only [hF, List.mem_singleton] at hr
    rw [hr]
  | some page =>
    simp only [hF] at hr
    cases hM : page.mediaBox with
    | none =>
      simp only [hM, List.mem_singleton] at hr
      rw [hr]
    | some mb =>
      simp only [hM, List.mem_singleton] at hr
      rw [hr]

theorem scrapeBody_log (net : Net) (sched : List (String × Nat) → List (String × Nat))
    (w : World) (base_url cache_file : String) :
    (scrapeBody net sched w base_url cache_file).2 =
      (get_all_episodes net sched base_url).2 ++ (get_bg_image net base_url).2 ++
        (extract_info net base_url).2 := by
  simp only [scrapeBody]
  cases hE : (get_all_episodes net sched base_url).1 with
  | none => simp only [hE]
  | some eps => simp only [hE]

theorem isFresh_true {files : List (String × FileInfo)} {cf : String} {now : Nat}
    (fi : FileInfo) (h : lookA files cf = some fi) (h2 : now - fi.mtime < 86400) :
    isFresh files cf now = true := by
  simp only [isFresh, h]
  exact decide_eq_true h2

theorem isFresh_false {files : List (String × FileInfo)} {cf : String} {now : Nat}
    (h : ∀ fi : FileInfo, lookA files cf = some fi → 86400 ≤ now - fi.mtime) :
    isFresh files cf now = false := by
  simp only [isFresh]
  cases hl : lookA files cf with
  | none => rfl
  | some fi => exact decide_eq_false (Nat.not_lt.mpr (h fi hl))

theorem get_all_episodes_some (net : Net) (sched : List (String × Nat) → List (String × Nat))
    (base_url : String) (page : Page) (hp : net.fetchPage base_url = some page) :
    (get_all_episodes net sched base_url).1 =
      some (buildResults net (sched (submittedEntries page))) := by
  simp [get_all_episodes, hp]

theorem get_all_episodes_none (net : Net) (sched : List (String × Nat) → List (String × Nat))
    (base_url : String) (hp : net.fetchPage base_url = none) :
    (get_all_episodes net sched base_url).1 = none := by
  simp [get_all_episodes, hp]

theorem scrape_and_save_invalid (net : Net) (sched : List (String × Nat) → List (String × Nat))
    (w : World) (base_url : String)
    (h : pyStartsWith base_url "https://web.animerco.org/" = false) :
    scrape_and_save net sched w base_url = (w, []) := by
  simp [scrape_and_save, h]

theorem scrape_and_save_fresh (net : Net) (sched : List (String × Nat) → List (String × Nat))
    (w : World) (base_url : String)
    (hv : pyStartsWith base_url "https://web.animerco.org/" = true)
    (hf : isFresh w.files (cacheFileOf base_url) w.now = true) :
    scrape_and_save net sched w base_url = (mkdirCache w, []) := by
  simp [scrape_and_save, mkdirCache, hv, hf]

theorem scrape_and_save_stale (net : Net) (sched : List (String × Nat) → List (String × Nat))
    (w : World) (base_url : String)
    (hv : pyStartsWith base_url "https://web.animerco.org/" = true)
    (hf : isFresh w.files (cacheFileOf base_url) w.now = false) :
    scrape_and_save net sched w base_url =
      scrapeBody net sched (mkdirCache w) base_url (cacheFileOf base_url) := by
  simp [scrape_and_save, mkdirCache, hv, hf]

theorem scrapeBody_write (net : Net) (sched : List (String × Nat) → List (String × Nat))
    (w : World) (base_url cache_file : String) (page : Page)
    (hp : net.fetchPage base_url = some page) :
    scrapeBody net sched w base_url cache_file =
      (World.mk
        (updA w.files cache_file
          (FileInfo.mk
            (FileData.record
              (CacheRecord.mk true base_url (get_bg_image net base_url).1
                (extract_info net base_url).1
                (buildResults net (sched (submittedEntries page))))) w.now))
        w.dirs w.now,
       (get_all_episodes net sched base_url).2 ++ (get_bg_image net base_url).2 ++
         (extract_info net base_url).2) := by
  have hE := get_all_episodes_some net sched base_url page hp
  simp only [scrapeBody, hE]

set_option maxRecDepth 8000

/-- Claim C7: `get_postid` returns the hidden `postid` input's value
attribute when the element exists and `None` when it is absent or the
page fetch fails; `get_episode_embed` returns `None` whenever the post
identifier is missing, and otherwise queries the AJAX endpoint with the
payload built from it. -/
theorem claim7_postid_contract (net : Net) (url : String) : PostidSpec net url := by
  simp only [PostidSpec]
  refine ⟨?_, ?_, ?_, ?_⟩
  · intro page hp
    simp [get_postid, hp]
  · intro hp
    simp [get_postid, hp]
  · intro hp
    simp [get_episode_embed, hp]
  · intro pv hp hne
    simp [get_episode_embed, hp, hne]

/-- Witness for claim C7: the contract instantiated at the demo oracle
and the demo episode page. -/
theorem claim7_witness : PostidSpec demoNet demoEp1 :=
  claim7_postid_contract demoNet demoEp1

/-- Claim C9: for every `base_url` that does not start with
`https://web.animerco.org/`, `scrape_and_save` returns immediately after
printing: it issues no request, writes no file, and does not even create
the cache directory, because the guard precedes `os.makedirs`. -/
theorem claim9_invalid_url_is_noop (net : Net)
    (sched : List (String × Nat) → List (String × Nat)) (w : World) (base_url : String)
    (h : pyStartsWith base_url "https://web.animerco.org/" = false) :
    scrape_and_save net sched w base_url = (w, []) :=
  scrape_and_save_invalid net sched w base_url h

/-- Witness for claim C9 at a concrete non-site URL. -/
theorem claim9_witness :
    scrape_and_save demoNet idSched w0 "http://bad.example/x" = (w0, []) :=
  claim9_invalid_url_is_noop demoNet idSched w0 "http://bad.example/x" (by decide)

/-- Claim C10: every `base_url` in which the seasons pattern does not
occur is mapped by `get_anime_name_from_url` to the constant
`"unknown_anime"`, so all such URLs share the single cache file
`cache/unknown_anime.json`. -/
theorem claim10_unknown_anime (base_url : String)
    (h : searchSeasons base_url.data = none) :
    get_anime_name_from_url base_url = "unknown_anime" ∧
    cacheFileOf base_url = "cache/unknown_anime.json" := by
  have h1 : get_anime_name_from_url base_url = "unknown_anime" := by
    simp [get_anime_name_from_url, h]
  refine ⟨h1, ?_⟩
  rw [cacheFileOf, h1]
  decide

/-- Witness for claim C10 at a concrete non-seasons URL. -/
theorem claim10_witness :
    get_anime_name_from_url "https://web.animerco.org/movies/mmm/" = "unknown_anime" ∧
    cacheFileOf "https://web.animerco.org/movies/mmm/" = "cache/unknown_anime.json" :=
  claim10_unknown_anime "https://web.animerco.org/movies/mmm/" (by decide)

/-- Claim C8, counterexample: one concrete run issues the listing GET
with `timeout=10` and the ImgBB upload POST with `timeout=15`, so not
every request carries the same deadline. -/
theorem claim8_counterexample :
    (⟨demoURL, some 10⟩ : Request) ∈ (scrape_and_save demoNet idSched w0 demoURL).2 ∧
    (⟨IMGBB_UPLOAD_URL, some 15⟩ : Request) ∈ (scrape_and_save demoNet idSched w0 demoURL).2 := by
  decide

/-- Claim C8 as amended: every request of a `scrape_and_save` run
carries an explicit per-request deadline, namely `timeout=10` for every
request to the anime site and `timeout=15` for the ImgBB upload; no
request is issued without a timeout. -/
theorem claim8_amended_timeouts (net : Net)
    (sched : List (String × Nat) → List (String × Nat)) (w : World) (base_url : String) :
    ∀ r ∈ (scrape_and_save net sched w base_url).2,
      r.timeout = some 10 ∨ r.timeout = some 15 := by
  intro r hr
  by_cases hv : pyStartsWith base_url "https://web.animerco.org/" = true
  · by_cases hf : isFresh w.files (cacheFileOf base_url) w.now = true
    · rw [scrape_and_save_fresh net sched w base_url hv hf] at hr
      exact absurd hr (List.not_mem_nil r)
    · have hf2 : isFresh w.files (cacheFileOf base_url) w.now = false :=
        Bool.eq_false_iff.mpr hf
      rw [scrape_and_save_stale net sched w base_url hv hf2, scrapeBody_log] at hr
      simp only [List.mem_append] at hr
      rcases hr with (hr | hr) | hr
      · exact Or.inl (timeout_get_all_episodes net sched base_url r hr)
      · exact timeout_get_bg_image net base_url r hr
      · exact Or.inl (timeout_extract_info net base_url r hr)
  · have hv2 : pyStartsWith base_url "https://web.animerco.org/" = false :=
      Bool.eq_false_iff.mpr hv
    rw [scrape_and_save_invalid net sched w base_url hv2] at hr
    exact absurd hr (List.not_mem_nil r)

/-- Witness for the amended claim C8: the listing GET of the demo run
indeed carries one of the two deadlines. -/
theorem claim8_witness :
    (⟨demoURL, some 10⟩ : Request).timeout = some 10 ∨
    (⟨demoURL, some 10⟩ : Request).timeout = some 15 :=
  claim8_amended_timeouts demoNet idSched w0 demoURL ⟨demoURL, some 10⟩ (by decide)

/-- Claim C2: with a valid `base_url`, if the cache file exists and is
less than 86400 seconds old, `scrape_and_save` returns without issuing
any request and without modifying any file; and whenever any request is
issued, the cache file was absent or at least one day old. -/
theorem claim2_cache_freshness (net : Net)
    (sched : List (String × Nat) → List (String × Nat)) (w : World) (base_url : String)
    (hv : pyStartsWith base_url "https://web.animerco.org/" = true) :
    CacheFreshSpec net sched w base_url := by
  simp only [CacheFreshSpec]
  constructor
  · intro fi hfi hage
    have hf : isFresh w.files (cacheFileOf base_url) w.now = true := isFresh_true fi hfi hage
    rw [scrape_and_save_fresh net sched w base_url hv hf]
    exact ⟨rfl, rfl⟩
  · intro hne fi hfi
    by_contra hlt
    push_neg at hlt
    have hf : isFresh w.files (cacheFileOf base_url) w.now = true := isFresh_true fi hfi hlt
    rw [scrape_and_save_fresh net sched w base_url hv hf] at hne
    exact hne rfl

/-- Witness for claim C2: the demo oracle against a world whose cache
file for the demo title is 1000 seconds old. -/
theorem claim2_witness : CacheFreshSpec demoNet idSched wFresh demoURL :=
  claim2_cache_freshness demoNet idSched wFresh demoURL (by decide)

/-- Claim C3, counterexample: a failed info extraction is not converted
to a null or omitted value — `extract_info` returns the typed error dict
`{"error": "media-box not found"}`, and a successful run persists that
dict in the output record. -/
theorem claim3_counterexample :
    (extract_info c3xNet c3xURL).1 = InfoResult.error "media-box not found" ∧
    claim4InfoShape (extract_info c3xNet c3xURL).1 = false ∧
    lookA (scrape_and_save c3xNet idSched w0 c3xURL).1.files "cache/cthreex.json" =
      some ⟨FileData.record ⟨true, c3xURL, none, InfoResult.error "media-box not found", []⟩, 1000000⟩ := by
  decide

/-- Claim C3 as amended: every failure is caught and converted into a
value, never raised to the caller — a failed listing fetch makes
`get_all_episodes` return `None`, a failed episode task is omitted from
the episodes dict leaving the remaining tasks' result unchanged, a
failed upload yields `None`, and a failed info extraction yields a
persisted `{"error": ...}` dict rather than a null or omitted value. -/
theorem claim3_errors_become_values (net : Net)
    (sched : List (String × Nat) → List (String × Nat)) (base_url img_url : String) :
    ErrorsAreValuesSpec net sched base_url img_url := by
  simp only [ErrorsAreValuesSpec]
  refine ⟨?_, ?_, ?_, ?_⟩
  · intro hp
    exact get_all_episodes_none net sched base_url hp
  · intro page hp
    rw [get_all_episodes_some net sched base_url page hp]
    exact congrArg some (foldl_epStep_filter net (sched (submittedEntries page)) [])
  · intro hp
    simp [extract_info, hp]
  · intro hu
    simp only [upload_image_from_url]
    by_cases he : img_url = ""
    · simp [he]
    · simp [he, hu]

/-- Witness for claim C3 at an oracle where the first episode task fails
and the second succeeds, and uploads fail. -/
theorem claim3_witness :
    ErrorsAreValuesSpec c3Net idSched c3URL "https://cdn.example/none.png" :=
  claim3_errors_become_values c3Net idSched c3URL "https://cdn.example/none.png"

/-- Claim C5, counterexample: two distinct episode page URLs whose
processing both succeed can derive the same episode number (one from its
URL, the other from its submission index), in which case the returned
mapping holds a single key and one record has been overwritten. -/
theorem claim5_counterexample :
    (succRes c5Net (c5a, 1)).map Prod.fst = some "2" ∧
    (succRes c5Net (c5b, 2)).map Prod.fst = some "2" ∧
    (get_all_episodes c5Net idSched c5URL).1 =
      some [("2", ⟨2, c5b, "https://embed.example/b2", some "tv"⟩)] := by
  decide

/-- Claim C5 as amended: the keys of the episodes mapping are always
distinct, and every entry comes from one of the submitted episode tasks;
but two distinct URLs deriving the same episode number collide on one
key, keeping only the later-completing record. -/
theorem claim5_amended_distinct_keys (net : Net)
    (sched : List (String × Nat) → List (String × Nat))
    (hs : ∀ l, List.Perm (sched l) l) (base_url : String) (page : Page)
    (hp : net.fetchPage base_url = some page) :
    ∃ m, (get_all_episodes net sched base_url).1 = some m ∧
      EpisodesKeysSpec net page m := by
  refine ⟨buildResults net (sched (submittedEntries page)),
    get_all_episodes_some net sched base_url page hp, ?_⟩
  simp only [EpisodesKeysSpec]
  constructor
  · exact buildResults_nodup_keys net _
  · intro p hm
    rcases mem_buildResults net _ p hm with ⟨e, he, hsr⟩
    exact ⟨e, (hs (submittedEntries page)).mem_iff.mp he, hsr⟩

/-- Witness for the amended claim C5 at the demo oracle. -/
theorem claim5_witness :
    ∃ m, (get_all_episodes demoNet idSched demoURL).1 = some m ∧
      EpisodesKeysSpec demoNet demoPage m :=
  claim5_amended_distinct_keys demoNet idSched (fun l => List.Perm.refl l) demoURL
    demoPage (by decide)

/-- Claim C1, counterexample: both distinct links of `c1URL` succeed and
derive episode number 7, yet the returned mapping holds only the second
link's record — the first successful result is not stored. -/
theorem claim1_counterexample :
    (process_episode_link c1Net c1a 1).1 =
      some ("7", ⟨7, c1a, "https://embed.example/a", some "tv"⟩) ∧
    (get_all_episodes c1Net idSched c1URL).1 =
      some [("7", ⟨7, c1b, "https://embed.example/b", some "tv"⟩)] := by
  decide

/-- Claim C1 as amended: the episode executor is configured with
`MAX_WORKERS = 10`; every entry of the returned mapping is the result of
processing its own link — stored under `str(ep_num)` with `page_url`
equal to that link and `episode` equal to its derived number, regardless
of completion order — and when the successful tasks derive pairwise
distinct keys, every successful result is stored. -/
theorem claim1_amended_association (net : Net)
    (sched : List (String × Nat) → List (String × Nat))
    (hs : ∀ l, List.Perm (sched l) l) (base_url : String) (page : Page)
    (hp : net.fetchPage base_url = some page)
    (hinj : ∀ e1 ∈ submittedEntries page, ∀ e2 ∈ submittedEntries page,
      (succRes net e1).map Prod.fst ≠ none →
      (succRes net e1).map Prod.fst = (succRes net e2).map Prod.fst →
      succRes net e1 = succRes net e2) :
    MAX_WORKERS = 10 ∧
    ∃ m, (get_all_episodes net sched base_url).1 = some m ∧
      EpisodesAssocSpec net page m := by
  refine ⟨rfl, buildResults net (sched (submittedEntries page)),
    get_all_episodes_some net sched base_url page hp, ?_⟩
  simp only [EpisodesAssocSpec]
  constructor
  · intro p hm
    rcases mem_buildResults net _ p hm with ⟨e, he, hsr⟩
    have he2 : e ∈ submittedEntries page := (hs (submittedEntries page)).mem_iff.mp he
    rcases process_episode_link_spec net e.1 e.2 p hsr with ⟨h1, h2, h3⟩
    exact ⟨e, he2, hsr, h1, h2, h3⟩
  · intro e he p hsr
    have he2 : e ∈ sched (submittedEntries page) :=
      (hs (submittedEntries page)).mem_iff.mpr he
    have hinj2 : ∀ e1 ∈ sched (submittedEntries page),
        ∀ e2 ∈ sched (submittedEntries page),
        (succRes net e1).map Prod.fst ≠ none →
        (succRes net e1).map Prod.fst = (succRes net e2).map Prod.fst →
        succRes net e1 = succRes net e2 :=
      fun a ha b hb => hinj a ((hs _).mem_iff.mp ha) b ((hs _).mem_iff.mp hb)
    exact buildResults_complete net _ hinj2 e he2 p hsr

/-- Witness for the amended claim C1 at the demo oracle, whose single
task trivially satisfies the distinct-keys hypothesis. -/
theorem claim1_witness :
    MAX_WORKERS = 10 ∧
    ∃ m, (get_all_episodes demoNet idSched demoURL).1 = some m ∧
      EpisodesAssocSpec demoNet demoPage m :=
  claim1_amended_association demoNet idSched (fun l => List.Perm.refl l) demoURL
    demoPage (by decide) (by decide)

/-- Claim C4, counterexample: a successful run whose `media-box` is
absent persists `info = {"error": "media-box not found"}` — an error
dict, not a genre list plus description. -/
theorem claim4_counterexample :
    lookA (scrape_and_save c4Net idSched w0 c4URL).1.files "cache/cfour.json" =
      some ⟨FileData.record ⟨true, c4URL, none, InfoResult.error "media-box not found", []⟩, 1000000⟩ ∧
    claim4InfoShape (InfoResult.error "media-box not found") = false := by
  decide

/-- Claim C4 as amended: every successful run persists exactly the flat
record with the success flag, the source URL, the optional image URL, an
info field that is either a genre list plus description or an error dict
with a message, and the episodes mapping keyed by `str(ep_num)`. -/
theorem claim4_amended_record_shape (net : Net)
    (sched : List (String × Nat) → List (String × Nat)) (w : World) (base_url : String)
    (hv : pyStartsWith base_url "https://web.animerco.org/" = true)
    (hmiss : ∀ fi : FileInfo, lookA w.files (cacheFileOf base_url) = some fi →
      86400 ≤ w.now - fi.mtime)
    (page : Page) (hp : net.fetchPage base_url = some page) :
    PersistedRecordSpec net sched w base_url := by
  have hf := isFresh_false hmiss
  have hrun := scrape_and_save_stale net sched w base_url hv hf
  have hbody := scrapeBody_write net sched (mkdirCache w) base_url (cacheFileOf base_url) page hp
  simp only [PersistedRecordSpec]
  refine ⟨buildResults net (sched (submittedEntries page)),
    get_all_episodes_some net sched base_url page hp, ?_, ?_, ?_⟩
  · rw [hrun, hbody]
    exact lookA_updA_self w.files (cacheFileOf base_url) _
  · intro p hm
    rcases mem_buildResults net _ p hm with ⟨e, _, hsr⟩
    exact (process_episode_link_spec net e.1 e.2 p hsr).1
  · cases hI : (extract_info net base_url).1 with
    | ok g c => exact Or.inl ⟨g, c, rfl⟩
    | error s => exact Or.inr ⟨s, rfl⟩

/-- Witness for the amended claim C4: the demo oracle against the empty
world. -/
theorem claim4_witness : PersistedRecordSpec demoNet idSched w0 demoURL :=
  claim4_amended_record_shape demoNet idSched w0 demoURL (by decide)
    (fun fi h => Option.noConfusion h) demoPage (by decide)

/-- Claim C6: every successful run overwrites the cache file wholesale —
the resulting content is exactly the newly built record, for any prior
content of the file — and leaves every other file unchanged. -/
theorem claim6_wholesale_overwrite (net : Net)
    (sched : List (String × Nat) → List (String × Nat)) (w : World) (base_url : String)
    (hv : pyStartsWith base_url "https://web.animerco.org/" = true)
    (hmiss : ∀ fi : FileInfo, lookA w.files (cacheFileOf base_url) = some fi →
      86400 ≤ w.now - fi.mtime)
    (page : Page) (hp : net.fetchPage base_url = some page) :
    OverwriteSpec net sched w base_url := by
  have hf := isFresh_false hmiss
  have hrun := scrape_and_save_stale net sched w base_url hv hf
  have hbody := scrapeBody_write net sched (mkdirCache w) base_url (cacheFileOf base_url) page hp
  simp only [OverwriteSpec]
  refine ⟨buildResults net (sched (submittedEntries page)),
    get_all_episodes_some net sched base_url page hp, ?_, ?_⟩
  · rw [hrun, hbody]
    rfl
  · intro f hf2
    rw [hrun, hbody]
    exact lookA_updA_ne w.files (cacheFileOf base_url) f _ hf2

/-- Witness for claim C6: the demo oracle against the empty world. -/
theorem claim6_witness : OverwriteSpec demoNet idSched w0 demoURL :=
  claim6_wholesale_overwrite demoNet idSched w0 demoURL (by decide)
    (fun fi h => Option.noConfusion h) demoPage (by decide)
